import Mathlib

/-!
# Verification of the `rocket_csrf` fairing (`src/csrf_fairing.rs`)

Shallow embedding of the CSRF-protection fairing: the request hook
(`on_request`), the response hook (`on_response`) and the builder's
`finalize`.  The crate's auxiliary modules (`path.rs`, `crypto.rs`,
`csrf_proxy.rs`, `csrf_token.rs`, `utils.rs`) are not part of the source
tree under verification; the path-template engine is modelled from the
specification (§4.2 PathMatcher), while the cryptographic engine, the
body-rewriting proxy, the token guard and the host framework's
string/URI helpers are kept abstract as parameters of the model
(structure `Host`).
-/

namespace RocketCsrf

/-- HTTP methods, `rocket::http::Method`. -/
inductive Method where
  | get | put | post | delete | options | head | trace | connect | patch
deriving DecidableEq, Repr

/-- A media type, as exposed by `rocket::http::ContentType::media_type()`:
only the top level type and the subtype matter to the fairing. -/
structure MediaType where
  top : String
  sub : String
deriving DecidableEq, Repr

/-- Model of `ContentType::is_html()`: the content type `text/html`. -/
def MediaType.isHtml (m : MediaType) : Bool :=
  m.top = "text" && m.sub = "html"

/-- The slice of a Rocket `Request` the fairing reads and writes: its
method, its URI (as the string `request.uri().to_string()`), its cookie
jar (name/value pairs) and its content type. -/
structure Request where
  method : Method
  uri : String
  cookies : List (String × String)
  contentType : Option MediaType
deriving DecidableEq, Repr

/-- Model of `request.cookies().get(name)`: the first cookie of the jar with the
given name, if any. -/
def lookupCookie (req : Request) (name : String) : Option String :=
  (req.cookies.find? (fun kv => kv.1 = name)).map (fun kv => kv.2)

/-- The guard `request.method()` match at the head of `on_request`:
`Get | Head | Connect | Options` return immediately. -/
def isExcludedMethod : Method → Bool
  | .get | .head | .connect | .options => true
  | _ => false

/-- Model of `request.content_type().map(|c| c.media_type())
      .filter(|m| m.top() == "multipart" && m.sub() == "form-data").is_some()`. -/
def isMultipartFormData : Option MediaType → Bool
  | some m => m.top = "multipart" && m.sub = "form-data"
  | none => false

/-! ## Path templates

Modelled from the spec: `path.rs` (the `Path` type with `Path::from`,
`extract` and `map`) is not under `src/`; the definitions below follow
§4.2 PathMatcher of the specification.  The percent-encoding applied by
`render`/`map` to substituted values is kept abstract as the parameter
`enc`. -/

/-- A segment of a compiled path template: a literal piece of text or a
named single-segment capture (spec §4.2, `compile`). -/
inductive Segment where
  | literal (s : String)
  | capture (name : String)
deriving DecidableEq, Repr

/-- Modelled from the spec: a compiled path template — an ordered
sequence of segments (spec §3 PathPattern). -/
structure Path where
  segments : List Segment
deriving DecidableEq, Repr

/-- Splitting a character list on a separator character, Rust
`str::split` style: `n` separators yield `n + 1` pieces, empty pieces
included. -/
def splitChars (sep : Char) : List Char → List (List Char)
  | [] => [[]]
  | c :: rest =>
    if c = sep then [] :: splitChars sep rest
    else
      match splitChars sep rest with
      | [] => [[c]]
      | piece :: pieces => (c :: piece) :: pieces

/-- A string split on the path separator `/`. -/
def splitSlash (s : String) : List String :=
  (splitChars (Char.ofNat 47) s.toList).map List.asString

/-- Modelled from the spec: one segment of `compile` — a segment
wrapped in the capture delimiters `<`…`>` becomes a capture of the
enclosed name, any other segment is a literal (spec §4.2). -/
def parseSeg (seg : String) : Segment :=
  let cs := seg.toList
  if cs.head? = some (Char.ofNat 60) ∧ cs.getLast? = some (Char.ofNat 62) ∧ 2 ≤ cs.length then
    Segment.capture ((cs.drop 1).dropLast.asString)
  else
    Segment.literal seg

/-- Modelled from the spec: `compile` / `Path::from` — split the
pattern on the path separator and classify each segment (spec §4.2). -/
def Path.fromPattern (pattern : String) : Path :=
  ⟨(splitSlash pattern).map parseSeg⟩

/-- Lookup in a capture map (association list from capture names to
captured strings, spec §3 CaptureMap). -/
def lookupCap (m : List (String × String)) (n : String) : Option String :=
  (m.find? (fun kv => kv.1 = n)).map (fun kv => kv.2)

/-- Modelled from the spec: `match` / `Path::extract` — requires equal
segment count; every literal segment must equal the corresponding
concrete segment; every capture binds exactly one segment.  `none` on
any mismatch (spec §4.2). -/
def Path.extract (p : Path) (concrete : String) : Option (List (String × String)) :=
  let segs := splitSlash concrete
  if segs.length = p.segments.length then
    (p.segments.zip segs).foldr
      (fun sp acc =>
        acc.bind (fun m =>
          match sp.1 with
          | Segment.literal l => if l = sp.2 then some m else none
          | Segment.capture n => some ((n, sp.2) :: m)))
      (some [])
  else none

/-- Modelled from the spec: render the segments — literals verbatim,
captures substituted with the (percent-)encoded captured value; `none`
as soon as a referenced capture name is absent (spec §4.2, `render`). -/
def renderSegs (enc : String → String) (m : List (String × String)) :
    List Segment → Option (List String)
  | [] => some []
  | Segment.literal l :: rest => (renderSegs enc m rest).map (fun t => l :: t)
  | Segment.capture n :: rest =>
    match lookupCap m n with
    | some v => (renderSegs enc m rest).map (fun t => enc v :: t)
    | none => none

/-- Modelled from the spec: `render` / `Path::map` — emit the rendered
segments joined by the path separator; `none` if a referenced capture
name is missing from the map (spec §4.2). -/
def Path.map (enc : String → String) (p : Path) (m : List (String × String)) :
    Option String :=
  (renderSegs enc m p.segments).map (String.intercalate ("/"))

/-- The capture names referenced by a template, in order. -/
def Path.captureNames (p : Path) : List String :=
  p.segments.filterMap (fun s =>
    match s with
    | Segment.capture n => some n
    | Segment.literal _ => none)

/-! ## The abstract host

External collaborators of `on_request`/`on_response` (spec §1 puts them
out of scope): the cryptographic engine from `crypto.rs`, the
`CsrfProxy` body rewriter, base64url, URL-encoded argument parsing
(`utils::parse_args`), UTF-8 conversions and Rocket's URI functions.
They appear as opaque function parameters; the fairing's control flow —
what the claims are about — is defined concretely on top of them. -/

/-- The abstract operations `on_request`/`on_response` call out to.
`κ`/`τ` are the parsed cookie/token types of the crypto engine. -/
structure Host (κ τ : Type) where
  /-- Decoder `BASE64URL_NOPAD.decode` (crate `data_encoding`). -/
  b64decode : List UInt8 → Option (List UInt8)
  /-- Parser `CsrfProtection::parse_cookie` (in `crypto.rs`), `Ok ↦ some`. -/
  parseCookie : List UInt8 → Option κ
  /-- Parser `CsrfProtection::parse_token` (in `crypto.rs`), `Ok ↦ some`. -/
  parseToken : List UInt8 → Option τ
  /-- Verifier `CsrfProtection::verify_token_pair` (in `crypto.rs`). -/
  verifyTokenPair : τ → κ → Bool
  /-- Parser `utils::parse_args`: the key/value pairs of an URL-encoded body. -/
  parseArgs : String → List (String × String)
  /-- Conversion `str::from_utf8(..).ok()`. -/
  utf8 : List UInt8 → Option String
  /-- Conversion `str::as_bytes`. -/
  asBytes : String → List UInt8
  /-- Encoder `rocket::http::uri::Uri::percent_encode`. -/
  pctEncode : String → String
  /-- Parser `Origin::parse_owned`, `Ok ↦ some`; the origin is represented by
  the string `request.uri().to_string()` takes after `set_uri`. -/
  parseOrigin : String → Option String
  /-- The percent-encoding the spec's `render` applies to substituted
  capture values (spec §4.2). -/
  enc : String → String
  /-- Injector `CsrfProxy::from(reader, token)` read to exhaustion: the rewritten
  byte stream, as a function of the token value and the input bytes. -/
  csrfProxy : List UInt8 → List UInt8 → List UInt8
  /-- The constant `CSRF_COOKIE_NAME` (crate root). -/
  csrfCookieName : String
  /-- The constant `CSRF_FORM_FIELD` (crate root). -/
  csrfFormField : String
  /-- The constant `CSRF_FORM_FIELD_MULTIPART` (crate root). -/
  csrfFormFieldMultipart : List UInt8

/-! ## Builder and fairing -/

/-- The builder `CsrfFairingBuilder` (its configuration fields; the secret-key
provisioning of `finalize` — env lookup, random fallback — is external
per spec §1 and not represented). -/
structure CsrfFairingBuilder where
  duration : Nat
  defaultTarget : String × Method
  exceptions : List (String × String × Method)
  autoInsert : Bool
  autoInsertDisablePrefixes : List String
  autoInsertMaxSize : Nat
deriving Repr

/-- The fairing `CsrfFairing` (its configuration fields; the secret is not
represented, the crypto engine being abstract). -/
structure CsrfFairing where
  duration : Nat
  defaultTarget : Path × Method
  exceptions : List (Path × Path × Method)
  autoInsert : Bool
  autoInsertDisablePrefixes : List String
  autoInsertMaxSize : Nat
deriving Repr

/-- Model of `CsrfFairingBuilder::finalize` (the configuration part): compile the
default target, check that it renders against the map `{uri ↦ ""}`
(i.e. that its only dynamic part, if any, is `<uri>`), fail with `none`
(the source's `Err(())`) otherwise; compile the exception patterns. -/
def finalize (enc : String → String) (b : CsrfFairingBuilder) : Option CsrfFairing :=
  let default_target := Path.fromPattern b.defaultTarget.1
  let hashmap : List (String × String) := [("uri", "")]
  if (default_target.map enc hashmap).isNone then
    none
  else
    some
      { duration := b.duration
        defaultTarget := (default_target, b.defaultTarget.2)
        exceptions := b.exceptions.map
          (fun e => (Path.fromPattern e.1, Path.fromPattern e.2.1, e.2.2))
        autoInsert := b.autoInsert
        autoInsertDisablePrefixes := b.autoInsertDisablePrefixes
        autoInsertMaxSize := b.autoInsertMaxSize }

/-! ## `on_request` -/

/-- Rust `slice::split(pred)`: the maximal subslices separated by the
elements matching the predicate (the separators removed); `n`
separators yield `n + 1` pieces, empty pieces included. -/
def splitBytes (p : UInt8 → Bool) : List UInt8 → List (List UInt8)
  | [] => [[]]
  | c :: rest =>
    if p c then [] :: splitBytes p rest
    else
      match splitBytes p rest with
      | [] => [[c]]
      | piece :: pieces => (c :: piece) :: pieces

/-- A line-terminator byte: `0x0A` (`\n`) or `0x0D` (`\r`). -/
def isLineEnd (c : UInt8) : Bool := c == 10 || c == 13

/-- The non-empty lines of the peeked body:
`data.peek().split(|&c| c==0x0A || c==0x0D).filter(|l| !l.is_empty())`. -/
def nonEmptyLines (peek : List UInt8) : List (List UInt8) :=
  (splitBytes isLineEnd peek).filter (fun l => !l.isEmpty)

/-- The `skip_while` test of the multipart branch: the line equals
`CSRF_FORM_FIELD_MULTIPART` or `&CSRF_FORM_FIELD_MULTIPART[..len-2]`. -/
def isCsrfHeaderLine (field l : List UInt8) : Bool :=
  l == field || l == field.take (field.length - 2)

/-- The multipart branch of `on_request` (lines 335–340): skip the
non-empty lines up to the one naming the CSRF form field, skip that
line, and take the first piece (up to a line terminator) of the next
line, if any. -/
def multipartCandidate (field peek : List UInt8) : Option (List UInt8) :=
  ((((nonEmptyLines peek).dropWhile (fun l => !isCsrfHeaderLine field l)).drop 1).map
    (fun token => (splitBytes isLineEnd token).head?)).head?.join

/-- The encoded token candidate of `on_request`: the multipart
extraction or the first `parse_args` value keyed by `CSRF_FORM_FIELD`,
then base64url(no padding) decoded. -/
def encodedTokenCandidate {κ τ : Type} (h : Host κ τ) (req : Request)
    (peek : List UInt8) : Option (List UInt8) :=
  (if isMultipartFormData req.contentType then
    multipartCandidate h.csrfFormFieldMultipart peek
  else
    ((h.parseArgs ((h.utf8 peek).getD (""))).filterMap
      (fun kv => if kv.1 = h.csrfFormField then some (h.asBytes kv.2) else none)).head?
  ).bind h.b64decode

/-- The parsed CSRF cookie of `on_request`: the jar's `CSRF_COOKIE_NAME`
cookie, base64url decoded, then `parse_cookie`d. -/
def parsedCookie {κ τ : Type} (h : Host κ τ) (req : Request) : Option κ :=
  ((lookupCookie req h.csrfCookieName).bind
    (fun v => h.b64decode (h.asBytes v))).bind h.parseCookie

/-- The parsed token of `on_request`: the encoded candidate,
`parse_token`ed. -/
def parsedToken {κ τ : Type} (h : Host κ τ) (req : Request)
    (peek : List UInt8) : Option τ :=
  (encodedTokenCandidate h req peek).bind h.parseToken

/-- The pass condition of `on_request` (lines 354–360): both the token
and the cookie parsed, and `verify_token_pair` true on the pair. -/
def pairOk {κ τ : Type} (h : Host κ τ) (req : Request) (peek : List UInt8) : Bool :=
  match parsedToken h req peek, parsedCookie h req with
  | some t, some c => h.verifyTokenPair t c
  | _, _ => false

/-- One iteration of the exception loop (lines 364–374): the rewrite an
entry yields when its source matches the URI, its destination renders
from the captures, and the destination parses as an origin; `none` when
any of the three steps fails. -/
def exceptionApplies {κ τ : Type} (h : Host κ τ) (uri0 : String)
    (e : Path × Path × Method) : Option (String × Method) :=
  match e.1.extract uri0 with
  | some param =>
    match Path.map h.enc e.2.1 param with
    | some destination =>
      match h.parseOrigin destination with
      | some origin => some (origin, e.2.2)
      | none => none
    | none => none
  | none => none

/-- The exception loop: the first entry that applies wins; later
entries are not consulted. -/
def applyExceptions {κ τ : Type} (h : Host κ τ) (uri0 : String) :
    List (Path × Path × Method) → Option (String × Method)
  | [] => none
  | e :: rest =>
    match exceptionApplies h uri0 e with
    | some r => some r
    | none => applyExceptions h uri0 rest

/-- The violation tail of `on_request` (lines 362–386): try the
exception list; otherwise render the default target with
`{uri ↦ percent_encode(uri)}`, parse it as an origin and reroute.  The
source `unwrap`s the two final steps; a failure there (a panic) is
`none`. -/
def rerouteViolation {κ τ : Type} (h : Host κ τ) (cfg : CsrfFairing)
    (req : Request) : Option Request :=
  match applyExceptions h req.uri cfg.exceptions with
  | some r => some { req with uri := r.1, method := r.2 }
  | none =>
    let uri := h.pctEncode req.uri
    match Path.map h.enc cfg.defaultTarget.1 [("uri", uri)] with
    | none => none
    | some destination =>
      match h.parseOrigin destination with
      | none => none
      | some origin => some { req with uri := origin, method := cfg.defaultTarget.2 }

/-- Model of `CsrfFairing::on_request` (lines 303–387): pass `GET`/`HEAD`/
`CONNECT`/`OPTIONS` through; pass requests with an empty cookie jar
through; pass requests with a verifying (token, cookie) pair through;
reroute everything else.  `some r` is the request the handler proceeds
with, `none` a panic of the source's `unwrap`s. -/
def on_request {κ τ : Type} (h : Host κ τ) (cfg : CsrfFairing) (req : Request)
    (peek : List UInt8) : Option Request :=
  if isExcludedMethod req.method then some req
  else if req.cookies.length = 0 then some req
  else if pairOk h req peek then some req
  else rerouteViolation h cfg req

/-! ## `on_response` -/

/-- A Set-Cookie style header as the fairing adjoins them: the
cookie's name, value and (when present) max-age. -/
structure SetCookieHeader where
  name : String
  value : String
  maxAge : Option Int
deriving DecidableEq, Repr

/-- The header `Cookie::build(CSRF_COOKIE_NAME, "").max_age(Duration::zero())`
adjoined to delete a stale cookie. -/
def deletionCookie (name : String) : SetCookieHeader :=
  { name := name, value := "", maxAge := some 0 }

/-- Model of `rocket::response::Body`: a body of known size (`Sized`) or a
streamed/chunked one; the reader is represented by the byte stream it
yields. -/
inductive BodyKind where
  | sized (reader : List UInt8) (len : Nat)
  | chunked (reader : List UInt8)
deriving DecidableEq, Repr

/-- The slice of a Rocket `Response` the fairing reads and writes. -/
structure Response where
  contentType : Option MediaType
  headers : List SetCookieHeader
  body : Option BodyKind
deriving DecidableEq, Repr

/-- The outcome of `request.guard::<CsrfToken>()`; the token is
represented by its byte value (`CsrfToken::value`). -/
inductive GuardOutcome where
  | success (token : List UInt8)
  | forward
  | failure
deriving DecidableEq, Repr

/-- Model of `str::starts_with`: the second string is a prefix of the first. -/
def strStartsWith (s pre : String) : Bool :=
  pre.toList.isPrefixOf s.toList

/-- The early return of `on_response` (lines 390–394): a response that
carries a non-HTML content type is skipped. -/
def skipsContentType (resp : Response) : Bool :=
  match resp.contentType with
  | some ct => !ct.isHtml
  | none => false

/-- Model of `CsrfFairing::on_response` (lines 389–449): skip non-HTML responses
and ignored prefixes; on a token (guard success) adjoin the CSRF cookie
header and pipe the body through `CsrfProxy` — in full for a sized body
within `auto_insert_max_size`, as a stream otherwise; on a forward,
delete a stale CSRF cookie if one is present; on a failure do nothing.
`none` is the panic of the source's `unwrap` of the cookie. -/
def on_response {κ τ : Type} (h : Host κ τ) (cfg : CsrfFairing) (req : Request)
    (guard : GuardOutcome) (resp : Response) : Option Response :=
  if skipsContentType resp then some resp
  else if cfg.autoInsertDisablePrefixes.any (fun p => strStartsWith req.uri p) then some resp
  else
    match guard with
    | GuardOutcome.failure => some resp
    | GuardOutcome.forward =>
      if (lookupCookie req h.csrfCookieName).isSome then
        some { resp with headers := resp.headers ++ [deletionCookie h.csrfCookieName] }
      else some resp
    | GuardOutcome.success token =>
      match lookupCookie req h.csrfCookieName with
      | none => none
      | some v =>
        let resp' : Response := { resp with
          headers := resp.headers ++ [{ name := h.csrfCookieName, value := v, maxAge := none }] }
        match resp'.body with
        | none => some resp'
        | some (BodyKind.sized reader len) =>
          if len ≤ cfg.autoInsertMaxSize then
            let res := h.csrfProxy token reader
            some { resp' with body := some (BodyKind.sized res res.length) }
          else
            some { resp' with body := some (BodyKind.chunked (h.csrfProxy token reader)) }
        | some (BodyKind.chunked reader) =>
          some { resp' with body := some (BodyKind.chunked (h.csrfProxy token reader)) }

/-! ## Specification-side reference definition and concrete instances -/

/-- The multipart extraction as the spec words it (§6): the first
non-empty line following the header line that names the CSRF form
field, truncated at the first CR or LF byte; nothing when no such part
exists. -/
def multipartCandidateSpec (field peek : List UInt8) : Option (List UInt8) :=
  match (nonEmptyLines peek).dropWhile (fun l => !isCsrfHeaderLine field l) with
  | [] => none
  | _ :: rest => rest.head?.map (fun l => l.takeWhile (fun c => !isLineEnd c))

/-- A concrete host whose decoders and parsers all fail and whose URI
functions are the identity. -/
def host0 : Host Unit Unit where
  b64decode := fun _ => none
  parseCookie := fun _ => none
  parseToken := fun _ => none
  verifyTokenPair := fun _ _ => false
  parseArgs := fun _ => []
  utf8 := fun _ => none
  asBytes := fun _ => []
  pctEncode := fun s => s
  parseOrigin := fun s => some s
  enc := fun s => s
  csrfProxy := fun _ input => input
  csrfCookieName := "csrf"
  csrfFormField := "csrf-token"
  csrfFormFieldMultipart := [72, 68, 82]

/-- A concrete host whose decoders succeed (base64 as the identity on
byte lists) and whose proxy appends a marker byte. -/
def hostA : Host Unit Unit where
  b64decode := fun bs => some bs
  parseCookie := fun _ => some ()
  parseToken := fun _ => some ()
  verifyTokenPair := fun _ _ => true
  parseArgs := fun _ => []
  utf8 := fun _ => some ("")
  asBytes := fun _ => []
  pctEncode := fun s => s
  parseOrigin := fun s => some s
  enc := fun s => s
  csrfProxy := fun _ input => input ++ [33]
  csrfCookieName := "csrf"
  csrfFormField := "csrf-token"
  csrfFormFieldMultipart := [72, 68, 82]

/-- A concrete fairing configuration: default target `/csrf` (method
`GET`), no exceptions. -/
def cfg0 : CsrfFairing where
  duration := 3600
  defaultTarget := (⟨[Segment.literal (""), Segment.literal ("csrf")]⟩, Method.get)
  exceptions := []
  autoInsert := true
  autoInsertDisablePrefixes := []
  autoInsertMaxSize := 16

/-- Configuration `cfg0` with three exception entries: a non-matching one, a matching
dynamic one, and a further matching one that must not be consulted. -/
def cfgEx : CsrfFairing :=
  { cfg0 with exceptions :=
      [(⟨[Segment.literal ("nope")]⟩, ⟨[Segment.literal ("t")]⟩, Method.get),
       (⟨[Segment.literal (""), Segment.capture ("x")]⟩,
        ⟨[Segment.literal (""), Segment.literal ("ex"), Segment.capture ("x")]⟩, Method.put),
       (⟨[Segment.literal (""), Segment.capture ("y")]⟩,
        ⟨[Segment.literal (""), Segment.literal ("other"), Segment.capture ("y")]⟩, Method.get)] }

/-- Configuration `cfg0` with the default target `/<uri>`. -/
def cfgU : CsrfFairing :=
  { cfg0 with defaultTarget := (⟨[Segment.literal (""), Segment.capture ("uri")]⟩, Method.get) }

/-- A mutating request with an empty cookie jar. -/
def req0 : Request where
  method := Method.post
  uri := "/"
  cookies := []
  contentType := none

/-- A mutating request with a (non-CSRF) cookie in its jar. -/
def req1 : Request where
  method := Method.post
  uri := "/x"
  cookies := [("other", "c")]
  contentType := none

/-- A safe-method request. -/
def reqGet : Request where
  method := Method.get
  uri := "/"
  cookies := [("a", "b")]
  contentType := none

/-- A mutating multipart request. -/
def reqM : Request where
  method := Method.post
  uri := "/"
  cookies := [("csrf", "x")]
  contentType := some { top := "multipart", sub := "form-data" }

/-- A request carrying a cookie named `csrf`. -/
def reqC : Request where
  method := Method.get
  uri := "/"
  cookies := [("csrf", "v")]
  contentType := none

/-- A peeked multipart body: `HDR\nTOK\rB`. -/
def peekM : List UInt8 := [72, 68, 82, 10, 84, 79, 75, 13, 66]

/-- An HTML response with a small sized body. -/
def respS : Response where
  contentType := some { top := "text", sub := "html" }
  headers := []
  body := some (BodyKind.sized [60] 1)

/-- A JSON response. -/
def respJ : Response where
  contentType := some { top := "application", sub := "json" }
  headers := []
  body := none

/-! ## Helper lemmas -/

theorem lookupCap_single (v n : String) :
    lookupCap [("uri", v)] n = if n = "uri" then some v else none := by
  by_cases h : n = "uri" <;> simp [lookupCap, List.find?, h, eq_comm]

theorem mem_captureNames (p : Path) (n : String) :
    n ∈ p.captureNames ↔ Segment.capture n ∈ p.segments := by
  simp only [Path.captureNames, List.mem_filterMap]
  constructor
  · rintro ⟨s, hs, hmatch⟩
    cases s with
    | literal l => simp at hmatch
    | capture m =>
      simp at hmatch
      subst hmatch
      exact hs
  · intro hmem
    exact ⟨Segment.capture n, hmem, rfl⟩

theorem renderSegs_isSome_iff (enc : String → String) (m : List (String × String))
    (segs : List Segment) :
    (renderSegs enc m segs).isSome ↔
      ∀ n, Segment.capture n ∈ segs → (lookupCap m n).isSome := by
  induction segs with
  | nil => simp [renderSegs]
  | cons s rest ih =>
    cases s with
    | literal l =>
      simp only [renderSegs, Option.isSome_map', ih, List.mem_cons]
      constructor
      · intro H n hn
        rcases hn with h | h
        · exact absurd h (by simp)
        · exact H n h
      · intro H n hn
        exact H n (Or.inr hn)
    | capture n =>
      cases hl : lookupCap m n with
      | none =>
        simp only [renderSegs, hl]
        constructor
        · intro H; exact absurd H (by simp)
        · intro H
          have := H n (by simp)
          rw [hl] at this
          exact absurd this (by simp)
      | some v =>
        simp only [renderSegs, hl, Option.isSome_map', ih, List.mem_cons]
        constructor
        · intro H n' hn'
          rcases hn' with h | h
          · cases h; simp [hl]
          · exact H n' h
        · intro H n' hn'
          exact H n' (Or.inr hn')

theorem renderSegs_single_uri (enc : String → String) (v : String) (segs : List Segment)
    (hcap : ∀ n, Segment.capture n ∈ segs → n = "uri") :
    renderSegs enc [("uri", v)] segs =
      some (segs.map (fun s =>
        match s with
        | Segment.literal l => l
        | Segment.capture _ => enc v)) := by
  induction segs with
  | nil => simp [renderSegs]
  | cons s rest ih =>
    have ih' := ih (fun n hn => hcap n (List.mem_cons_of_mem _ hn))
    cases s with
    | literal l => simp [renderSegs, ih']
    | capture n =>
      have hn : n = "uri" := hcap n (List.mem_cons_self _ _)
      subst hn
      have : lookupCap [("uri", v)] "uri" = some v := by simp [lookupCap_single]
      simp [renderSegs, this, ih']

theorem applyExceptions_append_of_none {κ τ : Type} (h : Host κ τ) (u : String)
    (pre l : List (Path × Path × Method))
    (hpre : ∀ e ∈ pre, exceptionApplies h u e = none) :
    applyExceptions h u (pre ++ l) = applyExceptions h u l := by
  induction pre with
  | nil => simp
  | cons e rest ih =>
    have he := hpre e (List.mem_cons_self _ _)
    simp only [List.cons_append, applyExceptions, he]
    exact ih (fun e' he' => hpre e' (List.mem_cons_of_mem _ he'))

theorem applyExceptions_eq_none {κ τ : Type} (h : Host κ τ) (u : String)
    (l : List (Path × Path × Method))
    (hl : ∀ e ∈ l, exceptionApplies h u e = none) :
    applyExceptions h u l = none := by
  have := applyExceptions_append_of_none h u l [] hl
  simpa using this

theorem splitBytes_sep_free (p : UInt8 → Bool) (bs : List UInt8) :
    ∀ l ∈ splitBytes p bs, ∀ c ∈ l, p c = false := by
  induction bs with
  | nil =>
    intro l hl c hc
    simp [splitBytes] at hl
    subst hl
    simp at hc
  | cons b rest ih =>
    intro l hl c hc
    by_cases hb : p b
    · simp only [splitBytes, hb, if_pos] at hl
      rcases List.mem_cons.mp hl with h | h
      · subst h; simp at hc
      · exact ih l h c hc
    · simp only [splitBytes, hb, if_neg, Bool.false_eq_true, not_false_iff] at hl
      rcases hsp : splitBytes p rest with _ | ⟨piece, pieces⟩
      · rw [hsp] at hl
        rcases List.mem_cons.mp hl with h | h
        · subst h
          rcases List.mem_cons.mp hc with h' | h'
          · subst h'; simpa using hb
          · simp at h'
        · simp at h
      · rw [hsp] at hl
        rcases List.mem_cons.mp hl with h | h
        · subst h
          rcases List.mem_cons.mp hc with h' | h'
          · subst h'; simpa using hb
          · exact ih piece (by rw [hsp]; exact List.mem_cons_self _ _) c h'
        · exact ih l (by rw [hsp]; exact List.mem_cons_of_mem _ h) c hc

theorem splitBytes_of_sep_free (p : UInt8 → Bool) (l : List UInt8)
    (hl : ∀ c ∈ l, p c = false) :
    splitBytes p l = [l] := by
  induction l with
  | nil => simp [splitBytes]
  | cons c rest ih =>
    have hc := hl c (List.mem_cons_self _ _)
    have ih' := ih (fun c' hc' => hl c' (List.mem_cons_of_mem _ hc'))
    simp [splitBytes, hc, ih']

theorem takeWhile_of_sep_free (p : UInt8 → Bool) (l : List UInt8)
    (hl : ∀ c ∈ l, p c = false) :
    l.takeWhile (fun c => !p c) = l := by
  induction l with
  | nil => simp
  | cons c rest ih =>
    have hc := hl c (List.mem_cons_self _ _)
    have ih' := ih (fun c' hc' => hl c' (List.mem_cons_of_mem _ hc'))
    simp [List.takeWhile, hc, ih']

theorem multipartCandidate_eq_spec (field peek : List UInt8) :
    multipartCandidate field peek = multipartCandidateSpec field peek := by
  unfold multipartCandidate multipartCandidateSpec
  cases hd : (nonEmptyLines peek).dropWhile (fun l => !isCsrfHeaderLine field l) with
  | nil => simp
  | cons hdl rest =>
    cases rest with
    | nil => simp
    | cons l rest' =>
      have hmemd : l ∈ nonEmptyLines peek := by
        have hmem' : l ∈ (nonEmptyLines peek).dropWhile (fun l => !isCsrfHeaderLine field l) := by
          rw [hd]
          exact List.mem_cons_of_mem _ (List.mem_cons_self _ _)
        exact (List.dropWhile_sublist _).subset hmem'
      have hmem : l ∈ splitBytes isLineEnd peek :=
        (List.mem_filter.mp hmemd).1
      have hfree : ∀ c ∈ l, isLineEnd c = false :=
        splitBytes_sep_free isLineEnd peek l hmem
      simp [splitBytes_of_sep_free isLineEnd l hfree,
        takeWhile_of_sep_free isLineEnd l hfree]

/-! ## The claims -/

/-- C2: `CsrfFairingBuilder::finalize` succeeds exactly when every
capture of the default target pattern is named `uri`: it returns an
error when the pattern contains any other capture name, and a fairing
when the pattern holds only literals or `uri` captures.  The check is
part of `finalize` itself, before any request is served. -/
theorem finalize_rejects_non_uri_capture (enc : String → String) (b : CsrfFairingBuilder) :
    (finalize enc b).isSome ↔
      ∀ n ∈ (Path.fromPattern b.defaultTarget.1).captureNames, n = "uri" := by
  have key : (Path.map enc (Path.fromPattern b.defaultTarget.1) [("uri", "")]).isSome ↔
      ∀ n ∈ (Path.fromPattern b.defaultTarget.1).captureNames, n = "uri" := by
    unfold Path.map
    rw [Option.isSome_map', renderSegs_isSome_iff]
    constructor
    · intro H n hn
      have hs := H n ((mem_captureNames _ _).mp hn)
      rw [lookupCap_single] at hs
      by_cases h : n = "uri"
      · exact h
      · simp [h] at hs
    · intro H n hn
      have hs := H n ((mem_captureNames _ _).mpr hn)
      subst hs
      simp [lookupCap_single]
  rw [← key]
  unfold finalize
  cases hmap : Path.map enc (Path.fromPattern b.defaultTarget.1) [("uri", "")] with
  | none => simp [hmap]
  | some d => simp [hmap]

/-- C3: a mutating request whose cookie jar holds zero cookies is
returned unmodified by `on_request`, whatever the host's parsers and
verifiers would have said (the theorem holds for every host, so neither
cookie nor token parsing nor verification nor rerouting takes place). -/
theorem on_request_empty_jar_passes {κ τ : Type} (h : Host κ τ) (cfg : CsrfFairing)
    (req : Request) (peek : List UInt8)
    (hm : isExcludedMethod req.method = false) (hc : req.cookies = []) :
    on_request h cfg req peek = some req := by
  simp [on_request, hm, hc]

theorem on_request_empty_jar_passes_witness :
    on_request host0 cfg0 req0 [] = some req0 :=
  on_request_empty_jar_passes host0 cfg0 req0 [] rfl rfl

/-- C8: a request whose method is `GET`, `HEAD`, `CONNECT` or `OPTIONS`
is returned by `on_request` unmodified, whatever the host's cookie jar,
body, parsers and configuration (the theorem holds for every host, so
neither cookies nor body are consulted). -/
theorem on_request_ignores_safe_methods {κ τ : Type} (h : Host κ τ) (cfg : CsrfFairing)
    (req : Request) (peek : List UInt8)
    (hm : isExcludedMethod req.method = true) :
    on_request h cfg req peek = some req := by
  simp [on_request, hm]

theorem on_request_ignores_safe_methods_witness :
    on_request host0 cfg0 reqGet [] = some reqGet :=
  on_request_ignores_safe_methods host0 cfg0 reqGet [] rfl

/-- C9: a response that carries a non-HTML content type is returned by
`on_response` unchanged (headers and body), for every configuration,
request and guard outcome. -/
theorem on_response_skips_non_html {κ τ : Type} (h : Host κ τ) (cfg : CsrfFairing)
    (req : Request) (g : GuardOutcome) (resp : Response) (ct : MediaType)
    (hct : resp.contentType = some ct) (hhtml : ct.isHtml = false) :
    on_response h cfg req g resp = some resp := by
  simp [on_response, skipsContentType, hct, hhtml]

theorem on_response_skips_non_html_witness :
    on_response host0 cfg0 req0 GuardOutcome.forward respJ = some respJ :=
  on_response_skips_non_html host0 cfg0 req0 GuardOutcome.forward respJ
    { top := "application", sub := "json" } rfl rfl

/-- C10: on an HTML response reaching the token guard, when the guard
forwards: if the request carries a cookie under the CSRF cookie name, a
Set-Cookie header with empty value and Max-Age zero is adjoined (the
body field is untouched by the record update); if it carries none, the
response is returned entirely unchanged. -/
theorem on_response_forward_stale_cookie {κ τ : Type} (h : Host κ τ) (cfg : CsrfFairing)
    (req : Request) (resp : Response)
    (hct : skipsContentType resp = false)
    (hdp : cfg.autoInsertDisablePrefixes.any (fun p => strStartsWith req.uri p) = false) :
    (∀ v, lookupCookie req h.csrfCookieName = some v →
      on_response h cfg req GuardOutcome.forward resp =
        some { resp with headers := resp.headers ++ [deletionCookie h.csrfCookieName] }) ∧
    (lookupCookie req h.csrfCookieName = none →
      on_response h cfg req GuardOutcome.forward resp = some resp) := by
  constructor
  · intro v hv
    simp [on_response, hct, hdp, hv]
  · intro hv
    simp [on_response, hct, hdp, hv]

theorem on_response_forward_stale_cookie_witness :
    (∀ v, lookupCookie reqC host0.csrfCookieName = some v →
      on_response host0 cfg0 reqC GuardOutcome.forward respS =
        some { respS with headers := respS.headers ++ [deletionCookie host0.csrfCookieName] }) ∧
    (lookupCookie reqC host0.csrfCookieName = none →
      on_response host0 cfg0 reqC GuardOutcome.forward respS = some respS) :=
  on_response_forward_stale_cookie host0 cfg0 reqC respS rfl rfl

/-- C1 (amended: for mutating requests whose cookie jar is non-empty):
`on_request` passes the request through unmodified exactly when the
CSRF cookie decodes and parses, the submitted token decodes and parses,
and `verify_token_pair` holds on the pair; in every other case the
result is the violation reroute (a matching exception target or the
default target). -/
theorem on_request_fail_closed {κ τ : Type} (h : Host κ τ) (cfg : CsrfFairing)
    (req : Request) (peek : List UInt8)
    (hm : isExcludedMethod req.method = false) (hc : req.cookies ≠ []) :
    on_request h cfg req peek =
      (if pairOk h req peek then some req else rerouteViolation h cfg req) ∧
    (pairOk h req peek = true ↔
      ∃ c t, parsedCookie h req = some c ∧ parsedToken h req peek = some t ∧
        h.verifyTokenPair t c = true) := by
  constructor
  · have hlen : ¬ req.cookies.length = 0 := by
      simpa [List.length_eq_zero] using hc
    simp [on_request, hm, hlen]
  · unfold pairOk
    cases ht : parsedToken h req peek with
    | none => simp
    | some t =>
      cases hck : parsedCookie h req with
      | none => simp
      | some c =>
        constructor
        · intro hv
          exact ⟨c, t, rfl, rfl, hv⟩
        · rintro ⟨c', t', hc', ht', hv⟩
          cases hc'
          cases ht'
          exact hv

theorem on_request_fail_closed_witness :
    (on_request host0 cfg0 req1 [] =
      (if pairOk host0 req1 [] then some req1 else rerouteViolation host0 cfg0 req1)) ∧
    (pairOk host0 req1 [] = true ↔
      ∃ c t, parsedCookie host0 req1 = some c ∧ parsedToken host0 req1 [] = some t ∧
        host0.verifyTokenPair t c = true) :=
  on_request_fail_closed host0 cfg0 req1 [] rfl (by decide)

/-- C1 counterexample to the claim as stated: a concrete mutating
(`POST`) request whose cookie jar is empty is passed through unmodified
by `on_request` although neither its CSRF cookie nor its token parses
and no reroute takes place (the reroute target differs from the
request). -/
theorem on_request_empty_jar_passthrough_cex :
    on_request host0 cfg0 req0 [] = some req0 ∧
    isExcludedMethod req0.method = false ∧
    parsedCookie host0 req0 = none ∧
    parsedToken host0 req0 [] = none ∧
    rerouteViolation host0 cfg0 req0 ≠ some req0 := by
  refine ⟨rfl, rfl, rfl, rfl, ?_⟩
  decide

/-- C4: when a violating request matches an exception entry, the first
entry (in configuration order) whose source pattern matches the URI,
whose destination renders from the captures, and whose rendered
destination parses as an origin decides the rewrite: the request gets
that entry's rendered origin as URI and that entry's method, and the
entries after it are never consulted (the conclusion holds for every
`post` tail). -/
theorem on_request_first_exception_wins {κ τ : Type} (h : Host κ τ) (cfg : CsrfFairing)
    (req : Request) (peek : List UInt8)
    (pre post : List (Path × Path × Method)) (src dst : Path) (m : Method)
    (param : List (String × String)) (destination origin : String)
    (hm : isExcludedMethod req.method = false)
    (hc : req.cookies ≠ [])
    (hv : pairOk h req peek = false)
    (hexc : cfg.exceptions = pre ++ (src, dst, m) :: post)
    (hpre : ∀ e ∈ pre, exceptionApplies h req.uri e = none)
    (hsrc : Path.extract src req.uri = some param)
    (hdst : Path.map h.enc dst param = some destination)
    (horig : h.parseOrigin destination = some origin) :
    on_request h cfg req peek = some { req with uri := origin, method := m } := by
  have hlen : ¬ req.cookies.length = 0 := by
    simpa [List.length_eq_zero] using hc
  have happ : exceptionApplies h req.uri (src, dst, m) = some (origin, m) := by
    simp [exceptionApplies, hsrc, hdst, horig]
  have hall : applyExceptions h req.uri cfg.exceptions = some (origin, m) := by
    rw [hexc, applyExceptions_append_of_none h req.uri pre _ hpre]
    simp [applyExceptions, happ]
  simp [on_request, hm, hlen, hv, rerouteViolation, hall]

theorem on_request_first_exception_wins_witness :
    on_request host0 cfgEx req1 [] = some { req1 with uri := "/ex/x", method := Method.put } :=
  on_request_first_exception_wins host0 cfgEx req1 []
    [(⟨[Segment.literal ("nope")]⟩, ⟨[Segment.literal ("t")]⟩, Method.get)]
    [(⟨[Segment.literal (""), Segment.capture ("y")]⟩,
      ⟨[Segment.literal (""), Segment.literal ("other"), Segment.capture ("y")]⟩, Method.get)]
    ⟨[Segment.literal (""), Segment.capture ("x")]⟩
    ⟨[Segment.literal (""), Segment.literal ("ex"), Segment.capture ("x")]⟩
    Method.put [("x", "x")] "/ex/x" "/ex/x"
    rfl (by decide) rfl rfl (by decide) (by decide) (by decide) rfl

/-- C5: a violating mutating request matching no exception is rerouted
to the default target: every `uri` capture of the default pattern is
substituted with the percent-encoded original request URI (as encoded
by the renderer), the rendered string is parsed as the new origin, and
the method is set to the configured default method. -/
theorem on_request_default_target_reroute {κ τ : Type} (h : Host κ τ) (cfg : CsrfFairing)
    (req : Request) (peek : List UInt8) (origin : String)
    (hm : isExcludedMethod req.method = false)
    (hc : req.cookies ≠ [])
    (hv : pairOk h req peek = false)
    (hexc : ∀ e ∈ cfg.exceptions, exceptionApplies h req.uri e = none)
    (hcap : ∀ n ∈ (cfg.defaultTarget.1).captureNames, n = "uri")
    (horig : h.parseOrigin (String.intercalate ("/") ((cfg.defaultTarget.1).segments.map
        (fun s =>
          match s with
          | Segment.literal l => l
          | Segment.capture _ => h.enc (h.pctEncode req.uri)))) = some origin) :
    on_request h cfg req peek =
      some { req with uri := origin, method := cfg.defaultTarget.2 } := by
  have hlen : ¬ req.cookies.length = 0 := by
    simpa [List.length_eq_zero] using hc
  have hnone : applyExceptions h req.uri cfg.exceptions = none :=
    applyExceptions_eq_none h req.uri cfg.exceptions hexc
  have hmap : Path.map h.enc cfg.defaultTarget.1 [("uri", h.pctEncode req.uri)] =
      some (String.intercalate ("/") ((cfg.defaultTarget.1).segments.map
        (fun s =>
          match s with
          | Segment.literal l => l
          | Segment.capture _ => h.enc (h.pctEncode req.uri)))) := by
    unfold Path.map
    rw [renderSegs_single_uri h.enc (h.pctEncode req.uri) (cfg.defaultTarget.1).segments
      (fun n hn => hcap n ((mem_captureNames _ _).mpr hn))]
    rfl
  simp [on_request, hm, hlen, hv, rerouteViolation, hnone, hmap, horig]

theorem on_request_default_target_reroute_witness :
    on_request host0 cfgU req1 [] = some { req1 with uri := "//x", method := Method.get } :=
  on_request_default_target_reroute host0 cfgU req1 [] "//x"
    rfl (by decide) rfl (by decide) (by decide) rfl

/-- C6: for a multipart/form-data request, the encoded token candidate
of `on_request` equals the spec's extraction — the first non-empty line
following the header line that names the CSRF form field, truncated at
the first CR or LF byte — base64url(no padding) decoded; when no such
part exists the extraction yields no token. -/
theorem on_request_multipart_extraction {κ τ : Type} (h : Host κ τ) (req : Request)
    (peek : List UInt8)
    (hmp : isMultipartFormData req.contentType = true) :
    encodedTokenCandidate h req peek =
      (multipartCandidateSpec h.csrfFormFieldMultipart peek).bind h.b64decode := by
  simp [encodedTokenCandidate, hmp, multipartCandidate_eq_spec]

theorem on_request_multipart_extraction_witness :
    encodedTokenCandidate hostA reqM peekM =
      (multipartCandidateSpec hostA.csrfFormFieldMultipart peekM).bind hostA.b64decode :=
  on_request_multipart_extraction hostA reqM peekM rfl

/-- C7: in `on_response` with a token, a body of known size at most
`auto_insert_max_size` is read through the `CsrfProxy` injector in full
and re-set as a sized body; a body of known size above the bound, or of
unknown size, is re-set as a streamed body around the same injector. -/
theorem on_response_body_injection_modes {κ τ : Type} (h : Host κ τ) (cfg : CsrfFairing)
    (req : Request) (resp : Response) (token : List UInt8) (v : String)
    (hct : skipsContentType resp = false)
    (hdp : cfg.autoInsertDisablePrefixes.any (fun p => strStartsWith req.uri p) = false)
    (hcv : lookupCookie req h.csrfCookieName = some v) :
    (∀ reader len, resp.body = some (BodyKind.sized reader len) →
      len ≤ cfg.autoInsertMaxSize →
      on_response h cfg req (GuardOutcome.success token) resp =
        some { resp with
          headers := resp.headers ++ [{ name := h.csrfCookieName, value := v, maxAge := none }],
          body := some (BodyKind.sized (h.csrfProxy token reader)
            (h.csrfProxy token reader).length) }) ∧
    (∀ reader len, resp.body = some (BodyKind.sized reader len) →
      cfg.autoInsertMaxSize < len →
      on_response h cfg req (GuardOutcome.success token) resp =
        some { resp with
          headers := resp.headers ++ [{ name := h.csrfCookieName, value := v, maxAge := none }],
          body := some (BodyKind.chunked (h.csrfProxy token reader)) }) ∧
    (∀ reader, resp.body = some (BodyKind.chunked reader) →
      on_response h cfg req (GuardOutcome.success token) resp =
        some { resp with
          headers := resp.headers ++ [{ name := h.csrfCookieName, value := v, maxAge := none }],
          body := some (BodyKind.chunked (h.csrfProxy token reader)) }) := by
  refine ⟨?_, ?_, ?_⟩
  · intro reader len hbody hlen
    simp [on_response, hct, hdp, hcv, hbody, hlen]
  · intro reader len hbody hlen
    simp [on_response, hct, hdp, hcv, hbody, not_le.mpr hlen]
  · intro reader hbody
    simp [on_response, hct, hdp, hcv, hbody]

theorem on_response_body_injection_modes_witness :
    (∀ reader len, respS.body = some (BodyKind.sized reader len) →
      len ≤ cfg0.autoInsertMaxSize →
      on_response hostA cfg0 reqC (GuardOutcome.success [9]) respS =
        some { respS with
          headers := respS.headers ++
            [{ name := hostA.csrfCookieName, value := "v", maxAge := none }],
          body := some (BodyKind.sized (hostA.csrfProxy [9] reader)
            (hostA.csrfProxy [9] reader).length) }) ∧
    (∀ reader len, respS.body = some (BodyKind.sized reader len) →
      cfg0.autoInsertMaxSize < len →
      on_response hostA cfg0 reqC (GuardOutcome.success [9]) respS =
        some { respS with
          headers := respS.headers ++
            [{ name := hostA.csrfCookieName, value := "v", maxAge := none }],
          body := some (BodyKind.chunked (hostA.csrfProxy [9] reader)) }) ∧
    (∀ reader, respS.body = some (BodyKind.chunked reader) →
      on_response hostA cfg0 reqC (GuardOutcome.success [9]) respS =
        some { respS with
          headers := respS.headers ++
            [{ name := hostA.csrfCookieName, value := "v", maxAge := none }],
          body := some (BodyKind.chunked (hostA.csrfProxy [9] reader)) }) :=
  on_response_body_injection_modes hostA cfg0 reqC respS [9] "v" rfl rfl rfl

end RocketCsrf
